import Mathlib

/-!
Verification of the ClawDen dashboard, SDK and CLI-wrapper sources.

The development shallowly embeds the TypeScript/JavaScript sources:

* the dashboard `App` (state, WebSocket handler, polling refresh) and its
  view components `AuditLogViewer`, `TaskMonitor`, `AgentDetail`,
  `InstanceList` (from `RuntimeCatalog.tsx`);
* the SDK's `testSkill` cross-runtime test harness;
* the npm wrapper's `getBinaryPath` / `isValidBinaryHeader` resolution.

Machine numbers are modelled as `Nat`/`Int`/`ℚ`; JavaScript promises that
resolve or reject are modelled as `Except String`; the filesystem seen by
the CLI wrapper is an explicit map from paths to byte lists.  The
`Array.prototype.sort` call in `AuditLogViewer` is modelled by Mathlib's
`List.insertionSort`, which is a stable sort, matching the stability
guarantee of `Array.prototype.sort` (ES2019) with the comparator
`(a, b) => b.timestamp_unix_ms - a.timestamp_unix_ms`.

The control plane itself (Lifecycle Manager, Health Monitor, Recovery
Engine) is a Rust backend that is not part of these sources; where a
property depends on it, the relevant operation is modelled from the spec
and marked as such in its doc comment.
-/

namespace Clawden

/-- Agent lifecycle state.  Source (dashboard `App.tsx`):
`type AgentState = 'registered' | 'installed' | 'running' | 'stopped' | 'degraded'`. -/
inductive AgentState
  | registered
  | installed
  | running
  | stopped
  | degraded
  deriving DecidableEq, BEq, Repr

/-- Agent health.  Source: `health: 'healthy' | 'degraded' | 'unhealthy' | 'unknown'`. -/
inductive Health
  | healthy
  | degraded
  | unhealthy
  | unknown
  deriving DecidableEq, BEq, Repr

/-- The `AgentRecord` interface exposed to the dashboard (declared identically
in `App.tsx` and in `RuntimeCatalog.tsx`). -/
structure AgentRecord where
  id : String
  name : String
  runtime : String
  capabilities : List String
  state : AgentState
  health : Health
  task_count : Nat
  consecutive_health_failures : Nat
  last_health_check_unix_ms : Option Int
  deriving DecidableEq, Repr

/-- The property names of the `AgentRecord` interface, in declaration order. -/
def agentRecordFields : List String :=
  ["id", "name", "runtime", "capabilities", "state", "health",
   "task_count", "consecutive_health_failures", "last_health_check_unix_ms"]

/-- The tuple of the nine declared `AgentRecord` properties. -/
def AgentFieldsTuple : Type :=
  String × String × String × List String × AgentState × Health × Nat × Nat × Option Int

/-- Project an `AgentRecord` onto its nine declared properties. -/
def toFieldsTuple (a : AgentRecord) : AgentFieldsTuple :=
  (a.id, a.name, a.runtime, a.capabilities, a.state, a.health,
   a.task_count, a.consecutive_health_failures, a.last_health_check_unix_ms)

/-- Rebuild an `AgentRecord` from the nine declared properties. -/
def ofFieldsTuple : AgentFieldsTuple → AgentRecord
  | (i, n, r, c, s, h, t, f, l) => ⟨i, n, r, c, s, h, t, f, l⟩

/-- The `FleetStatus` interface of the dashboard. -/
structure FleetStatus where
  total_agents : Nat
  running_agents : Nat
  degraded_agents : Nat
  deriving DecidableEq, Repr

/-- The `AuditEvent` interface of the dashboard. -/
structure AuditEvent where
  actor : String
  action : String
  target : String
  timestamp_unix_ms : Int
  deriving DecidableEq, Repr

/-- Descending-timestamp ordering used by `AuditLogViewer`:
`[...events].sort((a, b) => b.timestamp_unix_ms - a.timestamp_unix_ms)` puts
`a` before `b` exactly when `b.timestamp_unix_ms ≤ a.timestamp_unix_ms`. -/
def tsDesc (a b : AuditEvent) : Prop :=
  b.timestamp_unix_ms ≤ a.timestamp_unix_ms

instance : DecidableRel tsDesc := fun a b =>
  inferInstanceAs (Decidable (b.timestamp_unix_ms ≤ a.timestamp_unix_ms))

instance : IsTotal AuditEvent tsDesc :=
  ⟨fun a b => le_total b.timestamp_unix_ms a.timestamp_unix_ms⟩

instance : IsTrans AuditEvent tsDesc :=
  ⟨fun _ _ _ hab hbc => le_trans hbc hab⟩

/-- The sorted copy computed by `AuditLogViewer`:
`const sorted = [...events].sort((a, b) => b.timestamp_unix_ms - a.timestamp_unix_ms)`.
`Array.prototype.sort` is stable, so a stable descending insertion sort is a
faithful model. -/
def sortedAuditEvents (events : List AuditEvent) : List AuditEvent :=
  events.insertionSort tsDesc

/-- The rows actually rendered by `AuditLogViewer`: `sorted.slice(0, 200)`. -/
def renderedAuditEvents (events : List AuditEvent) : List AuditEvent :=
  (sortedAuditEvents events).take 200

/-- A rendered table cell of the `AgentDetail` view: either the em-dash
placeholder or a formatted date. -/
inductive RenderedCell
  | dash
  | date (unix_ms : Int)
  deriving DecidableEq, BEq, Repr

/-- The Last Health Check cell of `AgentDetail`:
`agent.last_health_check_unix_ms ? new Date(...).toLocaleString() : '—'`.
JavaScript truthiness makes both `null` and `0` render the placeholder. -/
def renderLastHealthCheck : Option Int → RenderedCell
  | none => .dash
  | some ms => if ms == 0 then .dash else .date ms

/-- A per-instance action button of the `InstanceList` component. -/
inductive Action
  | start
  | restart
  | stop
  | settings
  deriving DecidableEq, BEq, Repr

/-- The action buttons `InstanceList` renders for one agent row:
the start button under `agent.state !== 'running'`, the restart and stop
buttons under `agent.state === 'running'`, and the settings button always. -/
def instanceListActions (a : AgentRecord) : List Action :=
  (if a.state ≠ AgentState.running then [Action.start] else [])
    ++ (if a.state = AgentState.running then [Action.restart, Action.stop] else [])
    ++ [Action.settings]

/-- Typed failure of a lifecycle operation rejected before any adapter call. -/
inductive LifecycleError
  | invalidTransition
  deriving DecidableEq, BEq, Repr

/-- Outcome of the Lifecycle Manager's `stop`: the state it leaves the agent
in, the error (if the transition was rejected), and whether the adapter's
`stop` was invoked. -/
structure StopResult where
  newState : AgentState
  error : Option LifecycleError
  adapterCalled : Bool
  deriving DecidableEq, Repr

/-- Modelled from the spec: the Lifecycle Manager's `stop` operation.  The
Rust control plane is not among these sources; per the spec, `stop` requires
`Running` or `Degraded` (adapter called, state becomes `Stopped`), `stop` on
an agent already `Stopped` succeeds without side effect and without an
adapter call, and a stop requested from any other state fails with
`InvalidTransition` and leaves the state untouched. -/
def lifecycleStop : AgentState → StopResult
  | .running => ⟨.stopped, none, true⟩
  | .degraded => ⟨.stopped, none, true⟩
  | .stopped => ⟨.stopped, none, false⟩
  | .registered => ⟨.registered, some .invalidTransition, false⟩
  | .installed => ⟨.installed, some .invalidTransition, false⟩

/-- A concrete degraded agent, as the dashboard would receive it. -/
def degradedAgent : AgentRecord :=
  ⟨"agent-1", "worker", "openclaw", ["chat"], .degraded, .unhealthy, 3, 5,
    some 1700000000000⟩

/-- The dashboard's `View` union type. -/
inductive View
  | fleet
  | agentDetail
  | tasks
  | config
  | audit
  deriving DecidableEq, BEq, Repr

/-- The `App` component state: one field per `useState` hook. -/
structure DashboardState where
  status : FleetStatus
  agents : List AgentRecord
  auditEvents : List AuditEvent
  error : Option String
  view : View
  selectedAgentId : Option String
  wsConnected : Bool
  deriving DecidableEq, Repr

/-- The initial `App` state, from the `useState` initialisers. -/
def initialDashboardState : DashboardState :=
  ⟨⟨0, 0, 0⟩, [], [], none, .fleet, none, false⟩

/-- A parsed WebSocket message, per the `ws.onmessage` handler's dispatch on
`data.type`; `other` stands for any message the handler ignores. -/
inductive WsMessage
  | fleetStatus (payload : FleetStatus)
  | agents (payload : List AgentRecord)
  | audit (payload : List AuditEvent)
  | other

/-- The `ws.onmessage` handler: `fleet_status` replaces `status`, `agents`
replaces `agents`, `audit` replaces `auditEvents`; anything else is ignored. -/
def applyWsMessage (s : DashboardState) : WsMessage → DashboardState
  | .fleetStatus p => { s with status := p }
  | .agents p => { s with agents := p }
  | .audit p => { s with auditEvents := p }
  | .other => s

/-- One successful round of the polling fallback's `refresh`: the fetched
`/fleet/status` and `/agents` payloads replace `status` and `agents`, and the
error banner is cleared (`setError(null)`). -/
def applyPollRefresh (s : DashboardState) (nextStatus : FleetStatus)
    (nextAgents : List AgentRecord) : DashboardState :=
  { s with status := nextStatus, agents := nextAgents, error := none }

/-- The SDK's `SkillContext`. -/
structure SkillContext where
  runtime : String
  input : String
  deriving DecidableEq, Repr

/-- The SDK's `SkillDefinition`; `execute` returns a promise that either
resolves with a value or rejects with an error message, modelled as
`Except String α`.  The optional `adapters` record plays no role in
`testSkill` and is omitted. -/
structure SkillDefinition (α : Type) where
  name : String
  version : String
  runtimes : List String
  tools : List String
  execute : SkillContext → Except String α

/-- The SDK's `SkillTestResult`; wall-clock `durationMs` is not modelled. -/
structure SkillTestResult (α : Type) where
  runtime : String
  passed : Bool
  output : Option α
  error : Option String
  deriving DecidableEq, Repr

/-- The SDK's `SkillTestSuite`. -/
structure SkillTestSuite (α : Type) where
  skill : String
  results : List (SkillTestResult α)
  allPassed : Bool
  deriving DecidableEq, Repr

/-- One iteration of `testSkill`'s loop body: run `execute` for one runtime;
a resolution yields a passing result carrying the output, a rejection is
caught and yields a failing result carrying the error message. -/
def runSkillOnRuntime {α : Type} (skill : SkillDefinition α) (input runtime : String) :
    SkillTestResult α :=
  match skill.execute ⟨runtime, input⟩ with
  | .ok output => ⟨runtime, true, some output, none⟩
  | .error e => ⟨runtime, false, none, some e⟩

/-- The SDK's `testSkill`: one result per declared runtime, in declaration
order, and `allPassed = results.every(r => r.passed)`. -/
def testSkill {α : Type} (skill : SkillDefinition α) (input : String) :
    SkillTestSuite α :=
  let results := skill.runtimes.map (runSkillOnRuntime skill input)
  ⟨skill.name, results, results.all fun r => r.passed⟩

/-- A concrete two-runtime skill whose `execute` resolves on runtime `good`
and rejects on every other runtime. -/
def exSkill : SkillDefinition Nat :=
  ⟨"echo", "0.1.0", ["good", "bad"], [],
    fun ctx => if ctx.runtime = "good" then .ok 7 else .error "boom"⟩

/-- The wrapper's `PLATFORM_MAP` lookup `PLATFORM_MAP[platform]?.[arch]`. -/
def platformMap (platform arch : String) : Option String :=
  if platform = "darwin" then
    if arch = "x64" then some "darwin-x64"
    else if arch = "arm64" then some "darwin-arm64"
    else none
  else if platform = "linux" then
    if arch = "x64" then some "linux-x64" else none
  else if platform = "win32" then
    if arch = "x64" then some "windows-x64" else none
  else none

/-- `const binaryName = isWindows ? 'clawden-cli.exe' : 'clawden-cli'`. -/
def binaryName (platform : String) : String :=
  if platform = "win32" then "clawden-cli.exe" else "clawden-cli"

/-- The npm platform package name for a platform key. -/
def packageName (platformKey : String) : String :=
  "@clawden/cli-" ++ platformKey

/-- The filesystem the wrapper sees: each path maps to the bytes of the file
there, or to `none` when `accessSync`/`require.resolve`/`openSync` would
throw for it. -/
structure BinFs where
  contents : String → Option (List Nat)

/-- `readHeaderBytes`: read the first four bytes; `none` when the file is
missing (the open throws) or holds fewer than four bytes. -/
def readHeaderBytes (fs : BinFs) (path : String) : Option (List Nat) :=
  match fs.contents path with
  | none => none
  | some bytes => if 4 ≤ bytes.length then some (bytes.take 4) else none

/-- The wrapper's `MACHO_MAGICS` set. -/
def machoMagics : List Nat :=
  [0xfeedface, 0xfeedfacf, 0xcefaedfe, 0xcffaedfe, 0xcafebabe, 0xbebafeca]

/-- The platform-specific test on the four header bytes: ELF magic on
`linux`, MZ on `win32`, a Mach-O magic (read big- or little-endian) on
`darwin`, false elsewhere. -/
def headerMatches (platform : String) (header : List Nat) : Bool :=
  match header with
  | [b0, b1, b2, b3] =>
    if platform = "linux" then
      b0 == 0x7f && b1 == 0x45 && b2 == 0x4c && b3 == 0x46
    else if platform = "win32" then
      b0 == 0x4d && b1 == 0x5a
    else if platform = "darwin" then
      let magicBE := b0 * 16777216 + b1 * 65536 + b2 * 256 + b3
      let magicLE := b3 * 16777216 + b2 * 65536 + b1 * 256 + b0
      machoMagics.contains magicBE || machoMagics.contains magicLE
    else false
  | _ => false

/-- The wrapper's `isValidBinaryHeader`: false when the header cannot be read
(the try/catch swallows the error), otherwise the platform-specific check. -/
def isValidBinaryHeader (fs : BinFs) (path platform : String) : Bool :=
  match readHeaderBytes fs path with
  | none => false
  | some header => headerMatches platform header

/-- Candidate 1: `join(__dirname, '..', '..', '..', 'target', 'debug', binaryName)`. -/
def debugBinaryPath (platform : String) : String :=
  "__dirname/../../../target/debug/" ++ binaryName platform

/-- Candidate 2: `join(__dirname, '..', '..', '..', 'target', 'release', binaryName)`. -/
def releaseBinaryPath (platform : String) : String :=
  "__dirname/../../../target/release/" ++ binaryName platform

/-- Candidate 3: `require.resolve(packageName + '/' + binaryName)`. -/
def npmBinaryPath (platformKey platform : String) : String :=
  packageName platformKey ++ "/" ++ binaryName platform

/-- Candidate 4: `join(__dirname, '..', 'binaries', platformKey, binaryName)`. -/
def localBinaryPath (platformKey platform : String) : String :=
  "__dirname/../binaries/" ++ platformKey ++ "/" ++ binaryName platform

/-- The four candidate binary locations, in the order the wrapper tries them. -/
def binaryCandidates (platformKey platform : String) : List String :=
  [debugBinaryPath platform, releaseBinaryPath platform,
   npmBinaryPath platformKey platform, localBinaryPath platformKey platform]

/-- Whether `accessSync` (or `require.resolve`, for the npm candidate)
succeeds for a path. -/
def accessOk (fs : BinFs) (path : String) : Bool :=
  (fs.contents path).isSome

/-- The wrapper's `getBinaryPath`: resolve the platform key, then return the
first of the four candidates that is accessible and passes the header check;
`Except.error` stands for the `process.exit(1)` paths with the message
printed first. -/
def getBinaryPath (fs : BinFs) (platform arch : String) : Except String String :=
  match platformMap platform arch with
  | none => .error ("Unsupported platform: " ++ platform ++ "-" ++ arch)
  | some platformKey =>
    if accessOk fs (debugBinaryPath platform)
        && isValidBinaryHeader fs (debugBinaryPath platform) platform then
      .ok (debugBinaryPath platform)
    else if accessOk fs (releaseBinaryPath platform)
        && isValidBinaryHeader fs (releaseBinaryPath platform) platform then
      .ok (releaseBinaryPath platform)
    else if accessOk fs (npmBinaryPath platformKey platform)
        && isValidBinaryHeader fs (npmBinaryPath platformKey platform) platform then
      .ok (npmBinaryPath platformKey platform)
    else if accessOk fs (localBinaryPath platformKey platform)
        && isValidBinaryHeader fs (localBinaryPath platformKey platform) platform then
      .ok (localBinaryPath platformKey platform)
    else
      .error ("Binary not found for " ++ platform ++ "-" ++ arch)

/-- A concrete filesystem: the cargo release binary exists but has a bad
header, the npm platform package holds a well-formed ELF binary, everything
else is missing. -/
def exFs : BinFs :=
  ⟨fun path =>
    if path = releaseBinaryPath "linux" then some [0, 1, 2, 3]
    else if path = npmBinaryPath "linux-x64" "linux" then
      some [0x7f, 0x45, 0x4c, 0x46, 0, 0]
    else none⟩

/-- `TaskMonitor`'s total: `agents.reduce((sum, a) => sum + a.task_count, 0)`. -/
def totalTasks (agents : List AgentRecord) : Nat :=
  agents.foldl (fun sum a => sum + a.task_count) 0

/-- `TaskMonitor`'s load-bar width percentage:
`totalTasks > 0 ? (agent.task_count / totalTasks) * 100 : 0`. -/
def loadBarWidthPct (agents : List AgentRecord) (a : AgentRecord) : ℚ :=
  if 0 < totalTasks agents then
    ((a.task_count : ℚ) / (totalTasks agents : ℚ)) * 100
  else 0

/-- A concrete fleet status payload. -/
def exFleetStatus : FleetStatus := ⟨3, 1, 1⟩

/-!  Theorems.  -/

/-- Filtering by a fixed timestamp commutes with `List.orderedInsert` under
`tsDesc`: an inserted event with that timestamp lands in front of the equal
ones already present, and an inserted event with another timestamp leaves the
filtered list unchanged. -/
theorem filter_ts_orderedInsert (t : Int) (a : AuditEvent) (l : List AuditEvent) :
    (l.orderedInsert tsDesc a).filter (fun e => e.timestamp_unix_ms == t)
      = if a.timestamp_unix_ms == t
        then a :: l.filter (fun e => e.timestamp_unix_ms == t)
        else l.filter (fun e => e.timestamp_unix_ms == t) := by
  induction l with
  | nil =>
      by_cases ha : (a.timestamp_unix_ms == t) = true <;>
        simp [List.orderedInsert, List.filter_cons, ha]
  | cons b bs ih =>
      by_cases hab : tsDesc a b
      · by_cases ha : (a.timestamp_unix_ms == t) = true <;>
          simp [List.orderedInsert, if_pos hab, List.filter_cons, ha]
      · by_cases ha : (a.timestamp_unix_ms == t) = true
        · by_cases hb : (b.timestamp_unix_ms == t) = true
          · exact absurd
              (le_of_eq ((beq_iff_eq.mp hb).trans (beq_iff_eq.mp ha).symm)) hab
          · simp [List.orderedInsert, if_neg hab, List.filter_cons, ha, hb, ih]
        · by_cases hb : (b.timestamp_unix_ms == t) = true <;>
            simp [List.orderedInsert, if_neg hab, List.filter_cons, ha, hb, ih]

/-- Claim C3: the audit view's descending sort is stable, so events with
equal timestamps keep their insertion order; the events carrying any fixed
timestamp appear in the sorted list exactly in the order the event list
supplied them. -/
theorem sortedAuditEvents_stable (events : List AuditEvent) (t : Int) :
    (sortedAuditEvents events).filter (fun e => e.timestamp_unix_ms == t)
      = events.filter (fun e => e.timestamp_unix_ms == t) := by
  induction events with
  | nil => rfl
  | cons x xs ih =>
      simp only [sortedAuditEvents, List.insertionSort] at *
      rw [filter_ts_orderedInsert]
      by_cases hx : (x.timestamp_unix_ms == t) = true <;>
        simp [List.filter_cons, hx, ih]

/-- Claim C2: for every list of audit events, the audit-log view renders a
reverse-chronologically sorted rearrangement of the received events, at most
200 of them, and every rendered event is at least as recent as every event it
leaves out. -/
theorem renderedAuditEvents_spec (events : List AuditEvent) :
    (sortedAuditEvents events).Perm events
      ∧ List.Sorted tsDesc (sortedAuditEvents events)
      ∧ List.Sorted tsDesc (renderedAuditEvents events)
      ∧ (renderedAuditEvents events).length = min 200 events.length
      ∧ (((sortedAuditEvents events).drop 200).all fun y =>
          (renderedAuditEvents events).all fun x =>
            y.timestamp_unix_ms ≤ x.timestamp_unix_ms) = true := by
  have hperm : (sortedAuditEvents events).Perm events :=
    List.perm_insertionSort tsDesc events
  have hsorted : List.Sorted tsDesc (sortedAuditEvents events) :=
    List.sorted_insertionSort tsDesc events
  refine ⟨hperm, hsorted, ?_, ?_, ?_⟩
  · exact hsorted.sublist (List.take_sublist 200 _)
  · rw [renderedAuditEvents, List.length_take, hperm.length_eq]
  · rw [List.all_eq_true]
    intro y hy
    rw [List.all_eq_true]
    intro x hx
    rw [renderedAuditEvents] at hx
    exact decide_eq_true (hsorted.rel_of_mem_take_of_mem_drop hx hy)

/-- Claim C5: the `AgentRecord` interface carries exactly the nine declared
fields (the record and the nine-field tuple are in bijection), `health` ranges
over exactly healthy/degraded/unhealthy/unknown, and a null
`last_health_check_unix_ms` renders as the placeholder, which is not a date. -/
theorem agentRecord_surface_spec :
    (∀ a : AgentRecord, ofFieldsTuple (toFieldsTuple a) = a)
      ∧ (∀ tup : AgentFieldsTuple, toFieldsTuple (ofFieldsTuple tup) = tup)
      ∧ agentRecordFields.length = 9
      ∧ agentRecordFields.Nodup
      ∧ (∀ h : Health,
          h = .healthy ∨ h = .degraded ∨ h = .unhealthy ∨ h = .unknown)
      ∧ renderLastHealthCheck none = RenderedCell.dash
      ∧ (∀ ms : Int, (RenderedCell.dash == RenderedCell.date ms) = false) := by
  refine ⟨fun a => rfl, ?_, rfl, by decide, ?_, rfl, fun ms => rfl⟩
  · rintro ⟨i, n, r, c, s, h, t, f, l⟩
    rfl
  · intro h
    cases h <;> simp

/-- Claim C4 fails on the code: the `AgentRecord` interface declares exactly
the nine listed properties, no failure-detail (adapter error message) field
among them, and a record is fully determined by those nine properties, so no
adapter error message is retained on it. -/
theorem agentRecord_no_failure_detail :
    agentRecordFields
        = ["id", "name", "runtime", "capabilities", "state", "health",
           "task_count", "consecutive_health_failures",
           "last_health_check_unix_ms"]
      ∧ agentRecordFields.contains "last_failure_detail" = false
      ∧ agentRecordFields.contains "failure_detail" = false
      ∧ agentRecordFields.contains "last_error" = false
      ∧ agentRecordFields.contains "error" = false
      ∧ (∀ a : AgentRecord, ofFieldsTuple (toFieldsTuple a) = a) :=
  ⟨rfl, by decide, by decide, by decide, by decide, fun a => rfl⟩

/-- Claim C4, amended: the dashboard `AgentRecord` retains the degradation
evidence `health`, `consecutive_health_failures` and
`last_health_check_unix_ms` but no failure-detail field, and holds no
information beyond its nine declared properties. -/
theorem agentRecord_degradation_evidence :
    agentRecordFields.contains "health" = true
      ∧ agentRecordFields.contains "consecutive_health_failures" = true
      ∧ agentRecordFields.contains "last_health_check_unix_ms" = true
      ∧ agentRecordFields.contains "last_failure_detail" = false
      ∧ (∀ a : AgentRecord, ofFieldsTuple (toFieldsTuple a) = a)
      ∧ (∀ tup : AgentFieldsTuple, toFieldsTuple (ofFieldsTuple tup) = tup) := by
  refine ⟨by decide, by decide, by decide, by decide, fun a => rfl, ?_⟩
  rintro ⟨i, n, r, c, s, h, t, f, l⟩
  rfl

/-- Claim C6: the `state` field ranges over exactly the five declared values,
and the modelled lifecycle operation never leaves this set. -/
theorem agentState_exactly_five :
    ([AgentState.registered, .installed, .running, .stopped,
        .degraded] : List AgentState).Nodup
      ∧ (∀ s : AgentState,
          s ∈ [AgentState.registered, .installed, .running, .stopped,
            .degraded])
      ∧ (∀ s : AgentState,
          (lifecycleStop s).newState ∈ [AgentState.registered, .installed,
            .running, .stopped, .degraded]) := by
  refine ⟨by decide, ?_, ?_⟩ <;> intro s <;> cases s <;> simp [lifecycleStop]

/-- Claim C1 fails on the code: for a concrete agent in the `degraded` state,
the dashboard's instance list does not offer the stop action; it offers the
start and settings buttons only. -/
theorem stopOffered_degraded_counterexample :
    degradedAgent.state = AgentState.degraded
      ∧ (instanceListActions degradedAgent).contains Action.stop = false
      ∧ instanceListActions degradedAgent = [Action.start, Action.settings] :=
  ⟨rfl, by decide, by decide⟩

/-- Claim C1, amended: the instance list offers the stop button exactly when
the agent's state is `running` (and the start button exactly otherwise),
while the spec-modelled Lifecycle Manager `stop` is accepted from `Running`
and `Degraded` (adapter called, state becomes `Stopped`), succeeds
idempotently from `Stopped` without an adapter call, and fails with
`InvalidTransition` leaving the state untouched from `Registered` and
`Installed`. -/
theorem instanceList_stop_exactly_running :
    (∀ a : AgentRecord,
        (instanceListActions a).contains Action.stop
          = (a.state == AgentState.running))
      ∧ (∀ a : AgentRecord,
        (instanceListActions a).contains Action.start
          = !(a.state == AgentState.running))
      ∧ lifecycleStop .running = ⟨.stopped, none, true⟩
      ∧ lifecycleStop .degraded = ⟨.stopped, none, true⟩
      ∧ lifecycleStop .stopped = ⟨.stopped, none, false⟩
      ∧ lifecycleStop .registered = ⟨.registered, some .invalidTransition, false⟩
      ∧ lifecycleStop .installed = ⟨.installed, some .invalidTransition, false⟩ := by
  refine ⟨?_, ?_, rfl, rfl, rfl, rfl, rfl⟩ <;>
    · rintro ⟨i, n, r, c, s, h, t, f, l⟩
      cases s <;> rfl

/-- Claim C7: starting from any dashboard state with no pending data-source
error, one WebSocket `fleet_status` message followed by one `agents` message
leaves the dashboard in exactly the state one successful polling refresh of
`/fleet/status` and `/agents` with the same payloads produces; both delivery
paths carry the same `FleetStatus` and `AgentRecord` shapes by construction,
so the rendered view agrees. -/
theorem push_poll_same_state (s : DashboardState) (fs : FleetStatus)
    (ags : List AgentRecord) (h : s.error = none) :
    applyWsMessage (applyWsMessage s (.fleetStatus fs)) (.agents ags)
      = applyPollRefresh s fs ags := by
  cases s
  subst h
  rfl

/-- Witness for claim C7 at the initial dashboard state and concrete
payloads. -/
theorem push_poll_same_state_witness :
    applyWsMessage
        (applyWsMessage initialDashboardState (.fleetStatus exFleetStatus))
        (.agents [degradedAgent])
      = applyPollRefresh initialDashboardState exFleetStatus [degradedAgent] :=
  push_poll_same_state initialDashboardState exFleetStatus [degradedAgent] rfl

/-- Claim C8: `testSkill` produces exactly one result per declared runtime in
declaration order; a result passes exactly when `execute` resolves for that
runtime; a rejection is caught (the model is a total function, so nothing
propagates) and its message is captured on the failing result; and
`allPassed` holds exactly when every per-runtime result passed. -/
theorem testSkill_spec {α : Type} (skill : SkillDefinition α) (input : String) :
    ((testSkill skill input).results.map (fun r => r.runtime) = skill.runtimes)
      ∧ ((testSkill skill input).results.length = skill.runtimes.length)
      ∧ (∀ i, (h : i < skill.runtimes.length) →
          (testSkill skill input).results[i]?
            = some (runSkillOnRuntime skill input (skill.runtimes.get ⟨i, h⟩)))
      ∧ (∀ rt, (runSkillOnRuntime skill input rt).passed
          = (skill.execute ⟨rt, input⟩).isOk)
      ∧ (∀ rt e, skill.execute ⟨rt, input⟩ = Except.error e →
          runSkillOnRuntime skill input rt = ⟨rt, false, none, some e⟩)
      ∧ (∀ rt o, skill.execute ⟨rt, input⟩ = Except.ok o →
          runSkillOnRuntime skill input rt = ⟨rt, true, some o, none⟩)
      ∧ (((testSkill skill input).allPassed = true)
          ↔ ∀ r ∈ (testSkill skill input).results, r.passed = true) := by
  have hrt : ∀ rt, (runSkillOnRuntime skill input rt).runtime = rt := by
    intro rt
    unfold runSkillOnRuntime
    cases skill.execute ⟨rt, input⟩ <;> rfl
  refine ⟨?_, ?_, ?_, ?_, ?_, ?_, ?_⟩
  · simp [testSkill, List.map_map, Function.comp_def, hrt]
  · simp [testSkill]
  · intro i h
    simp [testSkill, List.getElem?_map, List.getElem?_eq_getElem h]
  · intro rt
    unfold runSkillOnRuntime Except.isOk
    cases skill.execute ⟨rt, input⟩ <;> rfl
  · intro rt e he
    unfold runSkillOnRuntime
    rw [he]
  · intro rt o ho
    unfold runSkillOnRuntime
    rw [ho]
  · exact List.all_eq_true

/-- Witness for claim C8 on the concrete two-runtime skill: the second
result is `bad`'s, failing with the captured message `boom`. -/
theorem testSkill_spec_witness :
    (testSkill exSkill "hi").results[1]?
        = some (runSkillOnRuntime exSkill "hi" "bad")
      ∧ runSkillOnRuntime exSkill "hi" "bad"
        = ⟨"bad", false, none, some "boom"⟩ := by
  refine ⟨(testSkill_spec exSkill "hi").2.2.1 1 (by decide), ?_⟩
  exact (testSkill_spec exSkill "hi").2.2.2.2.1 "bad" "boom" rfl

/-- Claim C9: whenever `getBinaryPath` returns a path, that path passes the
platform-specific header check and is the first of the four candidates (cargo
debug, cargo release, npm platform package, local binaries directory) that is
accessible with a valid header; and when the platform key resolves but no
candidate passes, `getBinaryPath` exits with an error instead of returning a
path. -/
theorem getBinaryPath_spec (fs : BinFs) (platform arch : String) :
    (∀ p, getBinaryPath fs platform arch = Except.ok p →
        isValidBinaryHeader fs p platform = true
          ∧ ∃ platformKey, platformMap platform arch = some platformKey
              ∧ (binaryCandidates platformKey platform).find?
                  (fun c => accessOk fs c && isValidBinaryHeader fs c platform)
                = some p)
      ∧ (∀ platformKey, platformMap platform arch = some platformKey →
          ((binaryCandidates platformKey platform).all
              fun c => !(accessOk fs c && isValidBinaryHeader fs c platform)) = true →
          ∃ msg, getBinaryPath fs platform arch = Except.error msg) := by
  constructor
  · intro p hp
    unfold getBinaryPath at hp
    cases hpm : platformMap platform arch with
    | none => rw [hpm] at hp; exact absurd hp (by simp)
    | some platformKey =>
        rw [hpm] at hp
        dsimp only at hp
        by_cases h1 : (accessOk fs (debugBinaryPath platform)
            && isValidBinaryHeader fs (debugBinaryPath platform) platform) = true
        · rw [if_pos h1] at hp
          injection hp with hp
          subst hp
          obtain ⟨hacc, hval⟩ : accessOk fs (debugBinaryPath platform) = true
              ∧ isValidBinaryHeader fs (debugBinaryPath platform) platform
                = true := by simpa using h1
          exact ⟨hval, platformKey, rfl,
            by simp [binaryCandidates, List.find?, h1]⟩
        · rw [if_neg h1] at hp
          have h1f : (accessOk fs (debugBinaryPath platform)
              && isValidBinaryHeader fs (debugBinaryPath platform) platform)
                = false := by simpa using h1
          by_cases h2 : (accessOk fs (releaseBinaryPath platform)
              && isValidBinaryHeader fs (releaseBinaryPath platform) platform) = true
          · rw [if_pos h2] at hp
            injection hp with hp
            subst hp
            obtain ⟨hacc, hval⟩ : accessOk fs (releaseBinaryPath platform) = true
                ∧ isValidBinaryHeader fs (releaseBinaryPath platform) platform
                  = true := by simpa using h2
            exact ⟨hval, platformKey, rfl,
              by simp [binaryCandidates, List.find?, h1f, h2]⟩
          · rw [if_neg h2] at hp
            have h2f : (accessOk fs (releaseBinaryPath platform)
                && isValidBinaryHeader fs (releaseBinaryPath platform) platform)
                  = false := by simpa using h2
            by_cases h3 : (accessOk fs (npmBinaryPath platformKey platform)
                && isValidBinaryHeader fs (npmBinaryPath platformKey platform)
                  platform) = true
            · rw [if_pos h3] at hp
              injection hp with hp
              subst hp
              obtain ⟨hacc, hval⟩ :
                  accessOk fs (npmBinaryPath platformKey platform) = true
                    ∧ isValidBinaryHeader fs (npmBinaryPath platformKey platform)
                        platform = true := by simpa using h3
              exact ⟨hval, platformKey, rfl,
                by simp [binaryCandidates, List.find?, h1f, h2f, h3]⟩
            · rw [if_neg h3] at hp
              have h3f : (accessOk fs (npmBinaryPath platformKey platform)
                  && isValidBinaryHeader fs (npmBinaryPath platformKey platform)
                    platform) = false := by simpa using h3
              by_cases h4 : (accessOk fs (localBinaryPath platformKey platform)
                  && isValidBinaryHeader fs (localBinaryPath platformKey platform)
                    platform) = true
              · rw [if_pos h4] at hp
                injection hp with hp
                subst hp
                obtain ⟨hacc, hval⟩ :
                    accessOk fs (localBinaryPath platformKey platform) = true
                      ∧ isValidBinaryHeader fs (localBinaryPath platformKey platform)
                          platform = true := by simpa using h4
                exact ⟨hval, platformKey, rfl,
                  by simp [binaryCandidates, List.find?, h1f, h2f, h3f, h4]⟩
              · rw [if_neg h4] at hp
                exact absurd hp (by simp)
  · intro platformKey hpk hall
    have hmem : ∀ c ∈ binaryCandidates platformKey platform,
        (accessOk fs c && isValidBinaryHeader fs c platform) = false := by
      intro c hc
      have hbit := List.all_eq_true.mp hall c hc
      cases hxy : (accessOk fs c && isValidBinaryHeader fs c platform) with
      | false => rfl
      | true => rw [hxy] at hbit; exact absurd hbit (by decide)
    have h1 := hmem (debugBinaryPath platform) (by simp [binaryCandidates])
    have h2 := hmem (releaseBinaryPath platform) (by simp [binaryCandidates])
    have h3 := hmem (npmBinaryPath platformKey platform) (by simp [binaryCandidates])
    have h4 := hmem (localBinaryPath platformKey platform) (by simp [binaryCandidates])
    refine ⟨"Binary not found for " ++ platform ++ "-" ++ arch, ?_⟩
    unfold getBinaryPath
    rw [hpk]
    dsimp only
    rw [if_neg (by simp [h1]), if_neg (by simp [h2]), if_neg (by simp [h3]),
      if_neg (by simp [h4])]

/-- Witness for claim C9 on a concrete filesystem: the cargo release binary
exists with a bad header and is skipped, the npm platform package's ELF
binary is returned, and the returned path passes the header check. -/
theorem getBinaryPath_spec_witness :
    getBinaryPath exFs "linux" "x64"
        = Except.ok (npmBinaryPath "linux-x64" "linux")
      ∧ isValidBinaryHeader exFs (npmBinaryPath "linux-x64" "linux") "linux"
        = true := by
  have hok : getBinaryPath exFs "linux" "x64"
      = Except.ok (npmBinaryPath "linux-x64" "linux") := rfl
  exact ⟨hok, ((getBinaryPath_spec exFs "linux" "x64").1 _ hok).1⟩

/-- Claim C10: the Task Monitor's load-bar width is total: it is exactly 0
when the fleet-wide task total is 0 (the guard avoids the division), it is
the agent's share of the total as a percentage when the total is positive
(stated division-free), and it is never negative.  The model computes in ℚ,
where no NaN exists; the guard is what keeps the JavaScript expression away
from `0 / 0`. -/
theorem loadBarWidthPct_spec (agents : List AgentRecord) (a : AgentRecord) :
    (totalTasks agents = 0 → loadBarWidthPct agents a = 0)
      ∧ (0 < totalTasks agents →
          loadBarWidthPct agents a * (totalTasks agents : ℚ)
            = (a.task_count : ℚ) * 100)
      ∧ 0 ≤ loadBarWidthPct agents a := by
  refine ⟨?_, ?_, ?_⟩
  · intro h
    simp [loadBarWidthPct, h]
  · intro h
    have hne : (totalTasks agents : ℚ) ≠ 0 := Nat.cast_ne_zero.mpr h.ne'
    rw [loadBarWidthPct, if_pos h]
    field_simp
  · rw [loadBarWidthPct]
    split
    · positivity
    · exact le_refl 0

/-- Witness for claim C10: an empty fleet yields width 0, and in a
single-agent fleet the agent with 3 of 3 tasks satisfies the division-free
share equation. -/
theorem loadBarWidthPct_witness :
    loadBarWidthPct [] degradedAgent = 0
      ∧ loadBarWidthPct [degradedAgent] degradedAgent
          * (totalTasks [degradedAgent] : ℚ) = (3 : ℚ) * 100 := by
  refine ⟨(loadBarWidthPct_spec [] degradedAgent).1 rfl, ?_⟩
  have h := (loadBarWidthPct_spec [degradedAgent] degradedAgent).2.1 (by decide)
  simpa using h

end Clawden
